import Mathlib

/-!
Shallow embedding of the geographical aggregation routine
`get_geographical_trends` from `backend/main.py` of the
socialmedia_trend_analysis repository.

The routine receives the list stored under the `"sentiment"` key of the
latest snapshot file (already parsed JSON), groups the records by their
`region` field, sums their `sentiment` values, and emits one result per
region carrying the rounded mean sentiment together with either city
coordinates or a country code taken from two fixed in-function tables.

Numeric values are modelled as exact rationals (`ℚ`); Python's `dict`
(insertion ordered, keys created on first occurrence) is modelled as an
association list to which fresh keys are appended at the end.  A record's
`region` field can be absent, JSON `null`, or a string; `item.get('region',
'Unknown')` yields the default only when the key is absent, so the set of
possible grouping keys is `None` or a string (`RegionKey` below).  The
`sentiment` field can be absent (so `item.get('sentiment', 0)` yields `0`),
present and coercible by `float`, or present and not coercible, in which
case `float` raises and the whole request aborts; the embedding returns
`Option.none` for that last case.
-/

/-- The `region` field of an incoming record: the key may be absent from the
JSON object, present with value `null`, or present with a string value. -/
inductive RegionVal where
  | missing
  | null
  | str (s : String)
  deriving DecidableEq

/-- The `sentiment` field of an incoming record: absent, a value that
`float` coerces (modelled by its exact rational value), or a value on which
`float` raises (e.g. the string `"abc"` or `null`). -/
inductive SentVal where
  | missing
  | num (q : ℚ)
  | malformed
  deriving DecidableEq

/-- One element of the `"sentiment"` array of the snapshot file. -/
structure SentimentRecord where
  region : RegionVal
  sentiment : SentVal
  deriving DecidableEq

/-- A key of the `region_sentiment` dict built by the grouping loop:
`item.get('region', 'Unknown')` returns Python `None` when the field is
present with value `null`, a string otherwise. -/
inductive RegionKey where
  | null
  | str (s : String)
  deriving DecidableEq

/-- `item.get('region', 'Unknown')` (main.py line 121): the default applies
only when the key is absent. -/
def getRegion (item : SentimentRecord) : RegionKey :=
  match item.region with
  | RegionVal.missing => RegionKey.str "Unknown"
  | RegionVal.null => RegionKey.null
  | RegionVal.str s => RegionKey.str s

/-- `float(item.get('sentiment', 0))` (main.py line 122): `0` when the key
is absent, the coerced value when `float` succeeds, and an exception
(`Option.none`) when it does not. -/
def getSentiment (item : SentimentRecord) : Option ℚ :=
  match item.sentiment with
  | SentVal.missing => some 0
  | SentVal.num q => some q
  | SentVal.malformed => Option.none

/-- The rational a record contributes on a run that completes (equals the
value of `getSentiment` whenever that is `some`). -/
def sentQ (item : SentimentRecord) : ℚ :=
  match item.sentiment with
  | SentVal.num q => q
  | _ => 0

/-- One value of the `region_sentiment` dict:
`{'total_sentiment': ..., 'count': ...}` (main.py line 124). -/
structure RegionAgg where
  total_sentiment : ℚ
  count : ℕ
  deriving DecidableEq

/-- The `region_sentiment` dict, as an insertion-ordered association list. -/
abbrev RegionMap := List (RegionKey × RegionAgg)

/-- Dict key lookup on the association list. -/
def lookupKey (k : RegionKey) : RegionMap → Option RegionAgg
  | [] => Option.none
  | p :: ps => if p.1 = k then some p.2 else lookupKey k ps

/-- `if region not in region_sentiment: region_sentiment[region] =
{'total_sentiment': 0, 'count': 0}` (main.py lines 123-124); a fresh key is
appended at the end, matching dict insertion order. -/
def insertIfAbsent (m : RegionMap) (k : RegionKey) : RegionMap :=
  if (lookupKey k m).isSome then m else m ++ [(k, ⟨0, 0⟩)]

/-- `region_sentiment[region]['total_sentiment'] += sentiment` and
`region_sentiment[region]['count'] += 1` (main.py lines 125-126). -/
def addToRegion (m : RegionMap) (k : RegionKey) (s : ℚ) : RegionMap :=
  m.map (fun p =>
    if p.1 = k then (p.1, ⟨p.2.total_sentiment + s, p.2.count + 1⟩) else p)

/-- One iteration of the grouping loop (main.py lines 120-126);
`Option.none` when `float` raises on the record's sentiment. -/
def processItem (m : RegionMap) (item : SentimentRecord) : Option RegionMap :=
  match getSentiment item with
  | Option.none => Option.none
  | some s =>
      some (addToRegion (insertIfAbsent m (getRegion item)) (getRegion item) s)

/-- The whole grouping loop `for item in sentiment_data: ...`
(main.py lines 120-126). -/
def buildRegionMap : RegionMap → List SentimentRecord → Option RegionMap
  | m, [] => some m
  | m, item :: rest =>
      match processItem m item with
      | Option.none => Option.none
      | some m2 => buildRegionMap m2 rest

/-- The fixed `country_codes` table (main.py lines 130-141). -/
def country_codes : List (String × String) :=
  [("United States", "USA"),
   ("United Kingdom", "GBR"),
   ("India", "IND"),
   ("Canada", "CAN"),
   ("Australia", "AUS"),
   ("Germany", "DEU"),
   ("France", "FRA"),
   ("Japan", "JPN"),
   ("South Korea", "KOR"),
   ("Brazil", "BRA")]

/-- A latitude/longitude pair from the city table. -/
structure Coord where
  lat : ℚ
  lon : ℚ
  deriving DecidableEq

/-- The fixed `location_coords` table (main.py lines 144-160). -/
def location_coords : List (String × Coord) :=
  [("New York", ⟨40.7128, -74.0060⟩),
   ("Los Angeles", ⟨34.0522, -118.2437⟩),
   ("Chicago", ⟨41.8781, -87.6298⟩),
   ("London", ⟨51.5074, -0.1278⟩),
   ("Paris", ⟨48.8566, 2.3522⟩),
   ("Berlin", ⟨52.5200, 13.4050⟩),
   ("Tokyo", ⟨35.6762, 139.6503⟩),
   ("Sydney", ⟨-33.8688, 151.2093⟩),
   ("Toronto", ⟨43.6532, -79.3832⟩),
   ("Mumbai", ⟨19.0760, 72.8777⟩),
   ("Delhi", ⟨28.7041, 77.1025⟩),
   ("Bangalore", ⟨12.9716, 77.5946⟩),
   ("Seoul", ⟨37.5665, 126.9780⟩),
   ("São Paulo", ⟨-23.5505, -46.6333⟩),
   ("Rio de Janeiro", ⟨-22.9068, -43.1729⟩)]

/-- Exact-key lookup in one of the fixed string-keyed tables. -/
def tableLookup {α : Type} (k : String) : List (String × α) → Option α
  | [] => Option.none
  | p :: ps => if p.1 = k then some p.2 else tableLookup k ps

/-- `region in location_coords` / `location_coords[region]`
(main.py lines 166-167); the `None` key is in no table. -/
def lookupCity : RegionKey → Option Coord
  | RegionKey.null => Option.none
  | RegionKey.str s => tableLookup s location_coords

/-- `country_codes.get(region, '')` (main.py line 178). -/
def lookupCountryCode : RegionKey → String
  | RegionKey.null => ""
  | RegionKey.str s => (tableLookup s country_codes).getD ""

/-- Round to the nearest integer, ties to even, as CPython's `round` does on
exactly representable halves (the spec leaves the tie rule open). -/
def roundHalfEven (q : ℚ) : ℤ :=
  if q - ⌊q⌋ < 1/2 then ⌊q⌋
  else if q - ⌊q⌋ > 1/2 then ⌊q⌋ + 1
  else if ⌊q⌋ % 2 = 0 then ⌊q⌋ else ⌊q⌋ + 1

/-- `round(avg_sentiment, 2)` (main.py lines 172 and 182), on exact
rationals. -/
def roundTo2 (q : ℚ) : ℚ := (roundHalfEven (q * 100) : ℚ) / 100

/-- One element of the returned `geographical_data` list: the dict built at
main.py lines 168-175 (city) or 179-185 (country). -/
inductive GeoResult where
  | city (region : RegionKey) (lat lon : ℚ) (sentiment : ℚ) (count : ℕ)
  | country (region : RegionKey) (code : String) (sentiment : ℚ) (count : ℕ)
  deriving DecidableEq

/-- The `'region'` field of an output dict. -/
def GeoResult.region : GeoResult → RegionKey
  | GeoResult.city r _ _ _ _ => r
  | GeoResult.country r _ _ _ => r

/-- The `'sentiment'` field of an output dict. -/
def GeoResult.sentiment : GeoResult → ℚ
  | GeoResult.city _ _ _ s _ => s
  | GeoResult.country _ _ s _ => s

/-- The `'count'` field of an output dict. -/
def GeoResult.count : GeoResult → ℕ
  | GeoResult.city _ _ _ _ c => c
  | GeoResult.country _ _ _ c => c

/-- The `'type'` field of an output dict. -/
def GeoResult.type : GeoResult → String
  | GeoResult.city _ _ _ _ _ => "city"
  | GeoResult.country _ _ _ _ => "country"

/-- The `'lat'` field of an output dict (absent on country results). -/
def GeoResult.lat : GeoResult → Option ℚ
  | GeoResult.city _ la _ _ _ => some la
  | GeoResult.country _ _ _ _ => Option.none

/-- The `'lon'` field of an output dict (absent on country results). -/
def GeoResult.lon : GeoResult → Option ℚ
  | GeoResult.city _ _ lo _ _ => some lo
  | GeoResult.country _ _ _ _ => Option.none

/-- The `'country_code'` field of an output dict (absent on city results). -/
def GeoResult.countryCode : GeoResult → Option String
  | GeoResult.city _ _ _ _ _ => Option.none
  | GeoResult.country _ c _ _ => some c

/-- One iteration of the emission loop (main.py lines 162-185): mean with
the `count > 0` guard, rounding, city-table-first lookup. -/
def emitResult (p : RegionKey × RegionAgg) : GeoResult :=
  let avg_sentiment : ℚ :=
    if p.2.count > 0 then p.2.total_sentiment / (p.2.count : ℚ) else 0
  match lookupCity p.1 with
  | some coords =>
      GeoResult.city p.1 coords.lat coords.lon (roundTo2 avg_sentiment) p.2.count
  | Option.none =>
      GeoResult.country p.1 (lookupCountryCode p.1) (roundTo2 avg_sentiment) p.2.count

/-- The aggregation routine of `get_geographical_trends` (main.py lines
119-187), from the parsed `sentiment_data` list to the response payload;
`Option.none` models the request aborting because `float` raised. -/
def get_geographical_trends (sentiment_data : List SentimentRecord) :
    Option (List GeoResult) :=
  match buildRegionMap [] sentiment_data with
  | Option.none => Option.none
  | some m => some (m.map emitResult)

/-- The distinct elements of a list in order of first occurrence, the order
in which the grouping loop creates dict keys. -/
def firstSeenAux (acc : List RegionKey) : List RegionKey → List RegionKey
  | [] => acc
  | k :: ks => if k ∈ acc then firstSeenAux acc ks else firstSeenAux (acc ++ [k]) ks

/-- First-occurrence order of the region keys of a list. -/
def firstSeen (l : List RegionKey) : List RegionKey := firstSeenAux [] l

/-- How many records of the list group under key `k`. -/
def contribCount (k : RegionKey) : List SentimentRecord → ℕ
  | [] => 0
  | item :: rest => (if getRegion item = k then 1 else 0) + contribCount k rest

/-- Sum of the coerced sentiment values of the records grouping under `k`. -/
def contribSum (k : RegionKey) : List SentimentRecord → ℚ
  | [] => 0
  | item :: rest => (if getRegion item = k then sentQ item else 0) + contribSum k rest

/-- Modelled from the spec: the region defaulting claimed in §3 and §7 of
the specification, which treats a missing and a `null` (and empty) region
alike as the label `"Unknown"`; used only to compare the claimed grouping
against the one the code performs. -/
def specRegionLabel (item : SentimentRecord) : String :=
  match item.region with
  | RegionVal.str s => s
  | _ => "Unknown"

/-- The emission step with the `count > 0` guard removed: the mean is
always `total_sentiment / count`. -/
def emitResultNoGuard (p : RegionKey × RegionAgg) : GeoResult :=
  let avg_sentiment : ℚ := p.2.total_sentiment / (p.2.count : ℚ)
  match lookupCity p.1 with
  | some coords =>
      GeoResult.city p.1 coords.lat coords.lon (roundTo2 avg_sentiment) p.2.count
  | Option.none =>
      GeoResult.country p.1 (lookupCountryCode p.1) (roundTo2 avg_sentiment) p.2.count

/-! ### Basic lemmas about field access and the association list -/

theorem getSentiment_eq_sentQ (item : SentimentRecord)
    (h : item.sentiment ≠ SentVal.malformed) :
    getSentiment item = some (sentQ item) := by
  cases hs : item.sentiment with
  | missing => simp [getSentiment, sentQ, hs]
  | num q => simp [getSentiment, sentQ, hs]
  | malformed => exact absurd hs h

theorem getSentiment_some (item : SentimentRecord) (s : ℚ)
    (h : getSentiment item = some s) :
    s = sentQ item ∧ item.sentiment ≠ SentVal.malformed := by
  cases hs : item.sentiment with
  | missing =>
      simp [getSentiment, hs] at h
      simp [sentQ, hs, h]
  | num q =>
      simp [getSentiment, hs] at h
      simp [sentQ, hs, h]
  | malformed =>
      simp [getSentiment, hs] at h

theorem lookupKey_isSome_iff (k : RegionKey) (m : RegionMap) :
    (lookupKey k m).isSome = true ↔ k ∈ m.map Prod.fst := by
  induction m with
  | nil => simp [lookupKey]
  | cons p ps ih =>
      by_cases hp : p.1 = k
      · simp [lookupKey, hp]
      · simp [lookupKey, hp, ih, Ne.symm hp]

theorem lookupKey_eq_none_iff (k : RegionKey) (m : RegionMap) :
    lookupKey k m = Option.none ↔ k ∉ m.map Prod.fst := by
  rw [← lookupKey_isSome_iff]
  cases lookupKey k m <;> simp

theorem lookupKey_addToRegion (m : RegionMap) (k k2 : RegionKey) (s : ℚ) :
    lookupKey k2 (addToRegion m k s) =
      if k2 = k then
        (lookupKey k2 m).map
          (fun a => ⟨a.total_sentiment + s, a.count + 1⟩)
      else lookupKey k2 m := by
  induction m with
  | nil => simp [lookupKey, addToRegion]
  | cons p ps ih =>
      have hcons : addToRegion (p :: ps) k s =
          (if p.1 = k then
            (p.1, ⟨p.2.total_sentiment + s, p.2.count + 1⟩) else p) ::
            addToRegion ps k s := rfl
      rw [hcons]
      by_cases hp : p.1 = k
      · by_cases hq : p.1 = k2
        · have hk : k2 = k := hq ▸ hp
          simp [lookupKey, hp, hq, hk]
        · have hk : ¬k = k2 := fun h => hq (hp.trans h)
          have hk2 : ¬k2 = k := fun h => hk h.symm
          simp [lookupKey, hp, hq, hk, hk2, ih]
      · by_cases hq : p.1 = k2
        · have hk : ¬k2 = k := fun h => hp (hq.trans h)
          simp [lookupKey, hp, hq, hk]
        · simp [lookupKey, hp, hq, ih]

theorem lookupKey_append (m : RegionMap) (k k2 : RegionKey) (a : RegionAgg) :
    lookupKey k2 (m ++ [(k, a)]) =
      match lookupKey k2 m with
      | some b => some b
      | Option.none => if k = k2 then some a else Option.none := by
  induction m with
  | nil => simp [lookupKey]
  | cons p ps ih =>
      by_cases hq : p.1 = k2 <;> simp [lookupKey, hq, ih]

theorem lookupKey_step (m : RegionMap) (k k2 : RegionKey) (s : ℚ) :
    lookupKey k2 (addToRegion (insertIfAbsent m k) k s) =
      if k2 = k then
        some (match lookupKey k m with
              | some a => ⟨a.total_sentiment + s, a.count + 1⟩
              | Option.none => ⟨s, 1⟩)
      else lookupKey k2 m := by
  unfold insertIfAbsent
  cases h : lookupKey k m with
  | some a =>
      simp only [h, Option.isSome_some, if_true, lookupKey_addToRegion]
      by_cases hk : k2 = k
      · subst hk
        simp [h]
      · simp [hk]
  | none =>
      simp only [h, Option.isSome_none, Bool.false_eq_true, if_false,
        lookupKey_addToRegion, lookupKey_append]
      by_cases hk : k2 = k
      · subst hk
        simp [h]
      · have hk2 : k ≠ k2 := Ne.symm hk
        cases hm : lookupKey k2 m <;> simp [hk, hk2, hm]

/-! ### Keys of the intermediate mapping -/

theorem keys_addToRegion (m : RegionMap) (k : RegionKey) (s : ℚ) :
    (addToRegion m k s).map Prod.fst = m.map Prod.fst := by
  induction m with
  | nil => rfl
  | cons p ps ih =>
      have hcons : addToRegion (p :: ps) k s =
          (if p.1 = k then
            (p.1, ⟨p.2.total_sentiment + s, p.2.count + 1⟩) else p) ::
            addToRegion ps k s := rfl
      rw [hcons]
      by_cases hp : p.1 = k <;> simp [hp, ih]

theorem keys_step (m : RegionMap) (k : RegionKey) (s : ℚ) :
    (addToRegion (insertIfAbsent m k) k s).map Prod.fst =
      if k ∈ m.map Prod.fst then m.map Prod.fst
      else m.map Prod.fst ++ [k] := by
  rw [keys_addToRegion]
  unfold insertIfAbsent
  by_cases hmem : k ∈ m.map Prod.fst
  · have hsm : (lookupKey k m).isSome = true :=
      (lookupKey_isSome_iff k m).mpr hmem
    simp [hsm, hmem]
  · have hsm : ¬(lookupKey k m).isSome = true :=
      fun h => hmem ((lookupKey_isSome_iff k m).mp h)
    simp [hsm, hmem]

theorem firstSeenAux_nodup (l : List RegionKey) :
    ∀ acc : List RegionKey, acc.Nodup → (firstSeenAux acc l).Nodup := by
  induction l with
  | nil => intro acc h; exact h
  | cons k ks ih =>
      intro acc h
      by_cases hk : k ∈ acc
      · simpa [firstSeenAux, hk] using ih acc h
      · have h2 : (acc ++ [k]).Nodup := by
          simp [List.nodup_append, h, hk]
        simpa [firstSeenAux, hk] using ih _ h2

theorem mem_firstSeenAux (a : RegionKey) (l : List RegionKey) :
    ∀ acc, a ∈ firstSeenAux acc l ↔ a ∈ acc ∨ a ∈ l := by
  induction l with
  | nil => intro acc; simp [firstSeenAux]
  | cons k ks ih =>
      intro acc
      by_cases hk : k ∈ acc
      · rw [firstSeenAux, if_pos hk, ih]
        constructor
        · rintro (h | h)
          · exact Or.inl h
          · exact Or.inr (List.mem_cons_of_mem _ h)
        · rintro (h | h)
          · exact Or.inl h
          · rcases List.mem_cons.mp h with rfl | h2
            · exact Or.inl hk
            · exact Or.inr h2
      · rw [firstSeenAux, if_neg hk, ih]
        simp only [List.mem_append, List.mem_cons, List.mem_singleton]
        tauto

theorem buildRegionMap_keys (items : List SentimentRecord) :
    ∀ m0 m : RegionMap, buildRegionMap m0 items = some m →
      m.map Prod.fst = firstSeenAux (m0.map Prod.fst) (items.map getRegion) := by
  induction items with
  | nil =>
      intro m0 m h
      simp only [buildRegionMap, Option.some.injEq] at h
      subst h
      rfl
  | cons item rest ih =>
      intro m0 m h
      cases hs : getSentiment item with
      | none => simp [buildRegionMap, processItem, hs] at h
      | some s =>
          simp only [buildRegionMap, processItem, hs] at h
          have h2 := ih _ m h
          rw [h2, keys_step, List.map_cons]
          by_cases h3 : getRegion item ∈ m0.map Prod.fst <;>
            simp [firstSeenAux, h3]

theorem buildRegionMap_keys_nodup (items : List SentimentRecord)
    (m : RegionMap) (h : buildRegionMap [] items = some m) :
    (m.map Prod.fst).Nodup := by
  have h2 := buildRegionMap_keys items [] m h
  simp only [List.map_nil] at h2
  rw [h2]
  exact firstSeenAux_nodup _ [] List.nodup_nil

theorem lookupKey_of_mem (m : RegionMap) (k : RegionKey) (a : RegionAgg)
    (hnd : (m.map Prod.fst).Nodup) (hmem : (k, a) ∈ m) :
    lookupKey k m = some a := by
  induction m with
  | nil => simp at hmem
  | cons p ps ih =>
      simp only [List.map_cons, List.nodup_cons] at hnd
      rcases List.mem_cons.mp hmem with h | h
      · rw [← h]
        simp [lookupKey]
      · have hk : k ∈ ps.map Prod.fst := List.mem_map.mpr ⟨(k, a), h, rfl⟩
        have hp : p.1 ≠ k := fun he => hnd.1 (by rwa [he])
        rw [lookupKey, if_neg hp]
        exact ih hnd.2 h

theorem mem_of_lookupKey (m : RegionMap) (k : RegionKey) (a : RegionAgg)
    (h : lookupKey k m = some a) : (k, a) ∈ m := by
  induction m with
  | nil => simp [lookupKey] at h
  | cons p ps ih =>
      by_cases hp : p.1 = k
      · rw [lookupKey, if_pos hp] at h
        have h2 : p.2 = a := by injection h
        exact List.mem_cons.mpr
          (Or.inl (by rw [Prod.ext_iff]; exact ⟨hp.symm, h2.symm⟩))
      · rw [lookupKey, if_neg hp] at h
        exact List.mem_cons.mpr (Or.inr (ih h))

/-! ### The grouping invariant: totals and counts per key -/

theorem buildRegionMap_lookup_some (items : List SentimentRecord) :
    ∀ (m0 m : RegionMap) (k : RegionKey) (a : RegionAgg),
      buildRegionMap m0 items = some m → lookupKey k m0 = some a →
      lookupKey k m = some ⟨a.total_sentiment + contribSum k items,
                            a.count + contribCount k items⟩ := by
  induction items with
  | nil =>
      intro m0 m k a h hl
      simp only [buildRegionMap, Option.some.injEq] at h
      subst h
      simp [contribSum, contribCount, hl]
  | cons item rest ih =>
      intro m0 m k a h hl
      cases hs : getSentiment item with
      | none => simp [buildRegionMap, processItem, hs] at h
      | some s =>
          simp only [buildRegionMap, processItem, hs] at h
          have hq : s = sentQ item := (getSentiment_some item s hs).1
          by_cases hk : k = getRegion item
          · have hl1 : lookupKey k (addToRegion
                (insertIfAbsent m0 (getRegion item)) (getRegion item) s) =
                some ⟨a.total_sentiment + s, a.count + 1⟩ := by
              rw [lookupKey_step, if_pos hk, ← hk, hl]
            have h2 := ih _ m k _ h hl1
            have hg : getRegion item = k := hk.symm
            rw [h2]
            simp [contribSum, contribCount, hg, hq, add_assoc]
          · have hl1 : lookupKey k (addToRegion
                (insertIfAbsent m0 (getRegion item)) (getRegion item) s) =
                some a := by
              rw [lookupKey_step, if_neg hk]
              exact hl
            have h2 := ih _ m k a h hl1
            have hg : ¬getRegion item = k := fun h3 => hk h3.symm
            rw [h2]
            simp [contribSum, contribCount, hg]

theorem buildRegionMap_lookup_none (items : List SentimentRecord) :
    ∀ (m0 m : RegionMap) (k : RegionKey),
      buildRegionMap m0 items = some m → lookupKey k m0 = Option.none →
      lookupKey k m =
        if contribCount k items = 0 then Option.none
        else some ⟨contribSum k items, contribCount k items⟩ := by
  induction items with
  | nil =>
      intro m0 m k h hl
      simp only [buildRegionMap, Option.some.injEq] at h
      subst h
      simp [contribCount, contribSum, hl]
  | cons item rest ih =>
      intro m0 m k h hl
      cases hs : getSentiment item with
      | none => simp [buildRegionMap, processItem, hs] at h
      | some s =>
          simp only [buildRegionMap, processItem, hs] at h
          have hq : s = sentQ item := (getSentiment_some item s hs).1
          by_cases hk : k = getRegion item
          · have hl1 : lookupKey k (addToRegion
                (insertIfAbsent m0 (getRegion item)) (getRegion item) s) =
                some ⟨s, 1⟩ := by
              rw [lookupKey_step, if_pos hk, ← hk, hl]
            have h2 := buildRegionMap_lookup_some rest _ m k _ h hl1
            have hg : getRegion item = k := hk.symm
            rw [h2]
            simp [contribSum, contribCount, hg, hq]
          · have hl1 : lookupKey k (addToRegion
                (insertIfAbsent m0 (getRegion item)) (getRegion item) s) =
                Option.none := by
              rw [lookupKey_step, if_neg hk]
              exact hl
            have h2 := ih _ m k h hl1
            have hg : ¬getRegion item = k := fun h3 => hk h3.symm
            rw [h2]
            simp [contribSum, contribCount, hg]

/-! ### The emission loop -/

theorem emitResult_city (p : RegionKey × RegionAgg) (c : Coord)
    (hc : lookupCity p.1 = some c) :
    emitResult p = GeoResult.city p.1 c.lat c.lon
      (roundTo2 (if p.2.count > 0 then
        p.2.total_sentiment / (p.2.count : ℚ) else 0)) p.2.count := by
  simp only [emitResult, hc]

theorem emitResult_country (p : RegionKey × RegionAgg)
    (hc : lookupCity p.1 = Option.none) :
    emitResult p = GeoResult.country p.1 (lookupCountryCode p.1)
      (roundTo2 (if p.2.count > 0 then
        p.2.total_sentiment / (p.2.count : ℚ) else 0)) p.2.count := by
  simp only [emitResult, hc]

theorem emitResult_region (p : RegionKey × RegionAgg) :
    (emitResult p).region = p.1 := by
  cases hc : lookupCity p.1 with
  | none => rw [emitResult_country p hc]; rfl
  | some c => rw [emitResult_city p c hc]; rfl

theorem emitResult_count (p : RegionKey × RegionAgg) :
    (emitResult p).count = p.2.count := by
  cases hc : lookupCity p.1 with
  | none => rw [emitResult_country p hc]; rfl
  | some c => rw [emitResult_city p c hc]; rfl

theorem emitResult_sentiment (p : RegionKey × RegionAgg) :
    (emitResult p).sentiment =
      roundTo2 (if p.2.count > 0 then
        p.2.total_sentiment / (p.2.count : ℚ) else 0) := by
  cases hc : lookupCity p.1 with
  | none => rw [emitResult_country p hc]; rfl
  | some c => rw [emitResult_city p c hc]; rfl

/-! ### Sum of the counts -/

/-- Sum of the `count` fields of the intermediate mapping. -/
def countSum (m : RegionMap) : ℕ := (m.map (fun p => p.2.count)).sum

theorem countSum_cons (p : RegionKey × RegionAgg) (ps : RegionMap) :
    countSum (p :: ps) = p.2.count + countSum ps := by
  simp [countSum]

theorem addToRegion_eq_of_not_mem (m : RegionMap) (k : RegionKey) (s : ℚ)
    (h : k ∉ m.map Prod.fst) : addToRegion m k s = m := by
  induction m with
  | nil => rfl
  | cons p ps ih =>
      simp only [List.map_cons, List.mem_cons] at h
      push_neg at h
      have hp : ¬p.1 = k := fun he => h.1 he.symm
      have hcons : addToRegion (p :: ps) k s =
          (if p.1 = k then
            (p.1, ⟨p.2.total_sentiment + s, p.2.count + 1⟩) else p) ::
            addToRegion ps k s := rfl
      rw [hcons, if_neg hp, ih h.2]

theorem countSum_addToRegion_mem (m : RegionMap) (k : RegionKey) (s : ℚ)
    (a : RegionAgg) (hnd : (m.map Prod.fst).Nodup)
    (hl : lookupKey k m = some a) :
    countSum (addToRegion m k s) = countSum m + 1 := by
  induction m with
  | nil => simp [lookupKey] at hl
  | cons p ps ih =>
      simp only [List.map_cons, List.nodup_cons] at hnd
      have hcons : addToRegion (p :: ps) k s =
          (if p.1 = k then
            (p.1, ⟨p.2.total_sentiment + s, p.2.count + 1⟩) else p) ::
            addToRegion ps k s := rfl
      by_cases hp : p.1 = k
      · have hnotin : k ∉ ps.map Prod.fst := hp ▸ hnd.1
        rw [hcons, if_pos hp, addToRegion_eq_of_not_mem ps k s hnotin,
          countSum_cons, countSum_cons]
        show p.2.count + 1 + countSum ps = p.2.count + countSum ps + 1
        omega
      · rw [lookupKey, if_neg hp] at hl
        rw [hcons, if_neg hp, countSum_cons, countSum_cons,
          ih hnd.2 hl]
        omega

theorem countSum_step (m : RegionMap) (k : RegionKey) (s : ℚ)
    (hnd : (m.map Prod.fst).Nodup) :
    countSum (addToRegion (insertIfAbsent m k) k s) = countSum m + 1 := by
  unfold insertIfAbsent
  cases hl : lookupKey k m with
  | some a =>
      simp only [hl, Option.isSome_some, if_true]
      exact countSum_addToRegion_mem m k s a hnd hl
  | none =>
      simp only [hl, Option.isSome_none, Bool.false_eq_true, if_false]
      have hnotin : k ∉ m.map Prod.fst := (lookupKey_eq_none_iff k m).mp hl
      have hsplit : addToRegion (m ++ [(k, ⟨0, 0⟩)]) k s =
          addToRegion m k s ++ addToRegion [(k, ⟨0, 0⟩)] k s := by
        simp [addToRegion]
      rw [hsplit, addToRegion_eq_of_not_mem m k s hnotin]
      simp [addToRegion, countSum]

theorem buildRegionMap_countSum (items : List SentimentRecord) :
    ∀ m0 m : RegionMap, (m0.map Prod.fst).Nodup →
      buildRegionMap m0 items = some m →
      countSum m = countSum m0 + items.length := by
  induction items with
  | nil =>
      intro m0 m hnd h
      simp only [buildRegionMap, Option.some.injEq] at h
      subst h
      simp
  | cons item rest ih =>
      intro m0 m hnd h
      cases hs : getSentiment item with
      | none => simp [buildRegionMap, processItem, hs] at h
      | some s =>
          simp only [buildRegionMap, processItem, hs] at h
          have hnd1 : ((addToRegion (insertIfAbsent m0 (getRegion item))
              (getRegion item) s).map Prod.fst).Nodup := by
            rw [keys_step]
            by_cases h2 : getRegion item ∈ m0.map Prod.fst
            · simpa [h2] using hnd
            · simp [h2, List.nodup_append, hnd]
          have h3 := ih _ m hnd1 h
          rw [h3, countSum_step m0 (getRegion item) s hnd]
          simp [List.length_cons]
          omega

/-! ### A run that completes -/

theorem buildRegionMap_total (items : List SentimentRecord) :
    ∀ m0 : RegionMap, (∀ r ∈ items, r.sentiment ≠ SentVal.malformed) →
      ∃ m, buildRegionMap m0 items = some m := by
  induction items with
  | nil => intro m0 _; exact ⟨m0, rfl⟩
  | cons item rest ih =>
      intro m0 h
      have hitem := h item (List.mem_cons_self _ _)
      obtain ⟨m, hm⟩ := ih
        (addToRegion (insertIfAbsent m0 (getRegion item)) (getRegion item)
          (sentQ item))
        (fun r hr => h r (List.mem_cons_of_mem _ hr))
      refine ⟨m, ?_⟩
      simp only [buildRegionMap, processItem, getSentiment_eq_sentQ item hitem]
      exact hm

/-! ### Rounding evaluation -/

theorem roundHalfEven_intCast (n : ℤ) : roundHalfEven (n : ℚ) = n := by
  simp [roundHalfEven, Int.floor_intCast]

theorem roundTo2_eval (n : ℤ) (q : ℚ) (h : q * 100 = (n : ℚ)) :
    roundTo2 q = (n : ℚ) / 100 := by
  rw [roundTo2, h, roundHalfEven_intCast]

/-! ### Decomposing a completed run -/

theorem get_geographical_trends_eq (items : List SentimentRecord)
    (out : List GeoResult) (h : get_geographical_trends items = some out) :
    ∃ m, buildRegionMap [] items = some m ∧ out = m.map emitResult := by
  unfold get_geographical_trends at h
  cases hm : buildRegionMap [] items with
  | none => rw [hm] at h; simp at h
  | some m =>
      rw [hm] at h
      simp only [Option.some.injEq] at h
      exact ⟨m, rfl, h.symm⟩

/-! ### Concrete rounding values used by the witnesses -/

theorem roundTo2_val_1 : roundTo2 (1 : ℚ) = 1 := by
  have h : (1 : ℚ) * 100 = ((100 : ℤ) : ℚ) := by norm_num
  rw [roundTo2, h, roundHalfEven_intCast]
  norm_num

theorem roundTo2_val_08 : roundTo2 (4/5 : ℚ) = 4/5 := by
  have h : (4/5 : ℚ) * 100 = ((80 : ℤ) : ℚ) := by norm_num
  rw [roundTo2, h, roundHalfEven_intCast]
  norm_num

theorem roundTo2_val_01 : roundTo2 (1/10 : ℚ) = 1/10 := by
  have h : (1/10 : ℚ) * 100 = ((10 : ℤ) : ℚ) := by norm_num
  rw [roundTo2, h, roundHalfEven_intCast]
  norm_num

/-! ### Claim C1 -/

/-- Claim C1 counterexample: one record whose `sentiment` value is not
coercible to float makes `float` raise inside the grouping loop, aborting
the whole request (modelled by `Option.none`): no per-region result is
returned, so a malformed sentiment is not coerced to `0`. -/
theorem C1_counterexample :
    get_geographical_trends
      [⟨RegionVal.str "Germany", SentVal.malformed⟩] = Option.none := rfl

/-- Claim C1 (amended): the routine completes and returns a result exactly
when no record carries a sentiment on which `float` raises; a missing
sentiment is coerced to `0`, but a present non-coercible one aborts the
request. -/
theorem C1_no_raise_when_coercible (items : List SentimentRecord)
    (h : ∀ r ∈ items, r.sentiment ≠ SentVal.malformed) :
    ∃ out, get_geographical_trends items = some out := by
  obtain ⟨m, hm⟩ := buildRegionMap_total items [] h
  refine ⟨m.map emitResult, ?_⟩
  simp only [get_geographical_trends, hm]

theorem C1_no_raise_when_coercible_witness :
    (∀ r ∈ [(⟨RegionVal.str "Germany", SentVal.missing⟩ : SentimentRecord)],
      r.sentiment ≠ SentVal.malformed) ∧
    ∃ out, get_geographical_trends
      [⟨RegionVal.str "Germany", SentVal.missing⟩] = some out :=
  ⟨by decide, C1_no_raise_when_coercible _ (by decide)⟩

/-! ### Claim C2 -/

/-- Claim C2 counterexample: a record whose `region` field is present with
value `null` is grouped under the Python key `None`, not under the label
`"Unknown"`: `item.get('region', 'Unknown')` substitutes the default only
when the key is absent. -/
theorem C2_counterexample :
    get_geographical_trends [⟨RegionVal.null, SentVal.num (4/5)⟩] =
      some [GeoResult.country RegionKey.null "" (4/5) 1] ∧
    RegionKey.null ≠ RegionKey.str "Unknown" := by
  constructor
  · norm_num +decide [get_geographical_trends, buildRegionMap, processItem,
      getSentiment, getRegion, insertIfAbsent, addToRegion, lookupKey,
      emitResult, lookupCity, tableLookup, lookupCountryCode, roundTo2_val_08]
  · decide

/-- Claim C2 (amended): every record contributes an output entry labelled
with its grouping key; a record with a missing `region` field is grouped
under `"Unknown"`, while one whose region is `null` keeps the `None` key
(and an empty-string region keeps the empty string). -/
theorem C2_missing_region_defaults (items : List SentimentRecord)
    (out : List GeoResult) (h : get_geographical_trends items = some out) :
    ∀ r ∈ items, ∃ g ∈ out,
      g.region = getRegion r ∧
      (r.region = RegionVal.missing → g.region = RegionKey.str "Unknown") ∧
      (r.region = RegionVal.null → g.region = RegionKey.null) := by
  obtain ⟨m, hm, hout⟩ := get_geographical_trends_eq items out h
  subst hout
  intro r hr
  have hkey : getRegion r ∈ m.map Prod.fst := by
    rw [buildRegionMap_keys items [] m hm]
    exact (mem_firstSeenAux _ _ _).mpr
      (Or.inr (List.mem_map_of_mem _ hr))
  obtain ⟨p, hp, hfst⟩ := List.mem_map.mp hkey
  refine ⟨emitResult p, List.mem_map_of_mem _ hp, ?_, ?_, ?_⟩
  · rw [emitResult_region]; exact hfst
  · intro hmiss
    rw [emitResult_region, hfst]
    simp [getRegion, hmiss]
  · intro hnull
    rw [emitResult_region, hfst]
    simp [getRegion, hnull]

theorem C2_missing_region_defaults_witness :
    get_geographical_trends [⟨RegionVal.missing, SentVal.num (4/5)⟩] =
      some [GeoResult.country (RegionKey.str "Unknown") "" (4/5) 1] ∧
    ∀ r ∈ [(⟨RegionVal.missing, SentVal.num (4/5)⟩ : SentimentRecord)],
      ∃ g ∈ [GeoResult.country (RegionKey.str "Unknown") "" (4/5) 1],
        g.region = getRegion r ∧
        (r.region = RegionVal.missing → g.region = RegionKey.str "Unknown") ∧
        (r.region = RegionVal.null → g.region = RegionKey.null) :=
  have he : get_geographical_trends [⟨RegionVal.missing, SentVal.num (4/5)⟩] =
      some [GeoResult.country (RegionKey.str "Unknown") "" (4/5) 1] := by
    norm_num +decide [get_geographical_trends, buildRegionMap, processItem,
      getSentiment, getRegion, insertIfAbsent, addToRegion, lookupKey,
      emitResult, lookupCity, tableLookup, location_coords, lookupCountryCode,
      country_codes, roundTo2_val_08]
  ⟨he, C2_missing_region_defaults _ _ he⟩

/-! ### Claim C7 -/

/-- Claim C7 counterexample: with one missing-region record and one
null-region record the routine emits two entries, while the claim's
defaulting (missing and null both mapped to `"Unknown"`) yields a single
distinct label: the output size does not equal the number of distinct
labels under the claimed defaulting. -/
theorem C7_counterexample :
    get_geographical_trends
      [⟨RegionVal.missing, SentVal.num 1⟩, ⟨RegionVal.null, SentVal.num 1⟩] =
      some [GeoResult.country (RegionKey.str "Unknown") "" 1 1,
            GeoResult.country RegionKey.null "" 1 1] ∧
    ([⟨RegionVal.missing, SentVal.num 1⟩,
      (⟨RegionVal.null, SentVal.num 1⟩ : SentimentRecord)].map
        specRegionLabel).dedup.length = 1 := by
  constructor
  · norm_num +decide [get_geographical_trends, buildRegionMap, processItem,
      getSentiment, getRegion, insertIfAbsent, addToRegion, lookupKey,
      emitResult, lookupCity, tableLookup, location_coords, lookupCountryCode,
      country_codes, roundTo2_val_1]
  · simp [specRegionLabel]

/-- Claim C7 (amended): the output has one entry per distinct grouping key,
where only a missing `region` field defaults to `"Unknown"` (a `null`
region stays the distinct `None` key); the key list in first-seen order has
no duplicates and contains exactly the keys of the input records, and an
empty input yields an empty output. -/
theorem C7_entry_count (items : List SentimentRecord) (out : List GeoResult)
    (h : get_geographical_trends items = some out) :
    out.length = (firstSeen (items.map getRegion)).length ∧
    (firstSeen (items.map getRegion)).Nodup ∧
    (∀ k, k ∈ firstSeen (items.map getRegion) ↔ k ∈ items.map getRegion) ∧
    get_geographical_trends [] = some [] := by
  obtain ⟨m, hm, hout⟩ := get_geographical_trends_eq items out h
  subst hout
  refine ⟨?_, firstSeenAux_nodup _ [] List.nodup_nil, fun k => ?_, rfl⟩
  · rw [List.length_map]
    have h2 := buildRegionMap_keys items [] m hm
    have h3 : m.length = (m.map Prod.fst).length := (List.length_map _ _).symm
    rw [h3, h2]
    rfl
  · rw [firstSeen, mem_firstSeenAux k (items.map getRegion) []]
    simp

theorem C7_entry_count_witness :
    get_geographical_trends
      [⟨RegionVal.missing, SentVal.num 1⟩, ⟨RegionVal.null, SentVal.num 1⟩] =
      some [GeoResult.country (RegionKey.str "Unknown") "" 1 1,
            GeoResult.country RegionKey.null "" 1 1] ∧
    ([GeoResult.country (RegionKey.str "Unknown") "" 1 1,
      GeoResult.country RegionKey.null "" 1 1].length =
      (firstSeen ([⟨RegionVal.missing, SentVal.num 1⟩,
        (⟨RegionVal.null, SentVal.num 1⟩ : SentimentRecord)].map
          getRegion)).length ∧
     (firstSeen ([⟨RegionVal.missing, SentVal.num 1⟩,
       (⟨RegionVal.null, SentVal.num 1⟩ : SentimentRecord)].map
         getRegion)).Nodup ∧
     (∀ k, k ∈ firstSeen ([⟨RegionVal.missing, SentVal.num 1⟩,
       (⟨RegionVal.null, SentVal.num 1⟩ : SentimentRecord)].map getRegion) ↔
       k ∈ [⟨RegionVal.missing, SentVal.num 1⟩,
         (⟨RegionVal.null, SentVal.num 1⟩ : SentimentRecord)].map getRegion) ∧
     get_geographical_trends [] = some []) :=
  have he : get_geographical_trends
      [⟨RegionVal.missing, SentVal.num 1⟩, ⟨RegionVal.null, SentVal.num 1⟩] =
      some [GeoResult.country (RegionKey.str "Unknown") "" 1 1,
            GeoResult.country RegionKey.null "" 1 1] := by
    norm_num +decide [get_geographical_trends, buildRegionMap, processItem,
      getSentiment, getRegion, insertIfAbsent, addToRegion, lookupKey,
      emitResult, lookupCity, tableLookup, location_coords, lookupCountryCode,
      country_codes, roundTo2_val_1]
  ⟨he, C7_entry_count _ _ he⟩

/-! ### Claim C3 -/

/-- Claim C3: every output entry's `count` is the number of records of the
input that group under its region key, that number is at least one, and its
`sentiment` is the mean of the coerced sentiment values of those records,
rounded to two decimal places. -/
theorem C3_mean_correct (items : List SentimentRecord) (out : List GeoResult)
    (h : get_geographical_trends items = some out) :
    ∀ g ∈ out,
      g.count = contribCount g.region items ∧
      1 ≤ g.count ∧
      g.sentiment = roundTo2 (contribSum g.region items / (g.count : ℚ)) := by
  obtain ⟨m, hm, hout⟩ := get_geographical_trends_eq items out h
  subst hout
  intro g hg
  obtain ⟨p, hp, hpe⟩ := List.mem_map.mp hg
  have hnd := buildRegionMap_keys_nodup items m hm
  have hl : lookupKey p.1 m = some p.2 := lookupKey_of_mem m p.1 p.2 hnd hp
  have h0 := buildRegionMap_lookup_none items [] m p.1 hm rfl
  rw [hl] at h0
  by_cases hc : contribCount p.1 items = 0
  · rw [if_pos hc] at h0
    exact absurd h0 (by simp)
  · rw [if_neg hc] at h0
    have hagg : p.2 = ⟨contribSum p.1 items, contribCount p.1 items⟩ := by
      injection h0
    have hpos : 0 < p.2.count := by
      rw [hagg]
      exact Nat.pos_of_ne_zero hc
    subst hpe
    refine ⟨?_, ?_, ?_⟩
    · rw [emitResult_count, emitResult_region, hagg]
    · rw [emitResult_count]
      exact hpos
    · rw [emitResult_sentiment, emitResult_region, emitResult_count,
        if_pos hpos, hagg]

theorem C3_mean_correct_witness :
    get_geographical_trends
      [⟨RegionVal.str "Germany", SentVal.num (1/2)⟩,
       ⟨RegionVal.str "Germany", SentVal.num (-3/10)⟩] =
      some [GeoResult.country (RegionKey.str "Germany") "DEU" (1/10) 2] ∧
    ∀ g ∈ [GeoResult.country (RegionKey.str "Germany") "DEU" (1/10) 2],
      g.count = contribCount g.region
        [⟨RegionVal.str "Germany", SentVal.num (1/2)⟩,
         ⟨RegionVal.str "Germany", SentVal.num (-3/10)⟩] ∧
      1 ≤ g.count ∧
      g.sentiment = roundTo2 (contribSum g.region
        [⟨RegionVal.str "Germany", SentVal.num (1/2)⟩,
         ⟨RegionVal.str "Germany", SentVal.num (-3/10)⟩] / (g.count : ℚ)) :=
  have he : get_geographical_trends
      [⟨RegionVal.str "Germany", SentVal.num (1/2)⟩,
       ⟨RegionVal.str "Germany", SentVal.num (-3/10)⟩] =
      some [GeoResult.country (RegionKey.str "Germany") "DEU" (1/10) 2] := by
    norm_num +decide [get_geographical_trends, buildRegionMap, processItem,
      getSentiment, getRegion, insertIfAbsent, addToRegion, lookupKey,
      emitResult, lookupCity, tableLookup, location_coords, lookupCountryCode,
      country_codes, roundTo2_val_01]
  ⟨he, C3_mean_correct _ _ he⟩

/-! ### Claim C4 -/

/-- Claim C4: every output entry whose region key is not in the city table
is a country entry whose `country_code` comes from the country table
(empty string when the key is in neither table); in particular, region
`"Germany"` with sentiment values `0.5` and `-0.3` yields exactly the
country entry with code `"DEU"`, mean `0.10` and count `2`. -/
theorem C4_country_fallback (items : List SentimentRecord)
    (out : List GeoResult) (h : get_geographical_trends items = some out) :
    (∀ g ∈ out, lookupCity g.region = Option.none →
      g.type = "country" ∧ g.countryCode = some (lookupCountryCode g.region)) ∧
    get_geographical_trends
      [⟨RegionVal.str "Germany", SentVal.num (1/2)⟩,
       ⟨RegionVal.str "Germany", SentVal.num (-3/10)⟩] =
      some [GeoResult.country (RegionKey.str "Germany") "DEU" (1/10) 2] := by
  obtain ⟨m, hm, hout⟩ := get_geographical_trends_eq items out h
  subst hout
  constructor
  · intro g hg hc
    obtain ⟨p, hp, hpe⟩ := List.mem_map.mp hg
    subst hpe
    rw [emitResult_region] at hc
    rw [emitResult_country p hc]
    simp [GeoResult.type, GeoResult.countryCode, GeoResult.region,
      emitResult_region]
  · norm_num +decide [get_geographical_trends, buildRegionMap, processItem,
      getSentiment, getRegion, insertIfAbsent, addToRegion, lookupKey,
      emitResult, lookupCity, tableLookup, location_coords, lookupCountryCode,
      country_codes, roundTo2_val_01]

theorem C4_country_fallback_witness :
    get_geographical_trends [⟨RegionVal.str "France", SentVal.num 1⟩] =
      some [GeoResult.country (RegionKey.str "France") "FRA" 1 1] ∧
    ((∀ g ∈ [GeoResult.country (RegionKey.str "France") "FRA" 1 1],
      lookupCity g.region = Option.none →
      g.type = "country" ∧
      g.countryCode = some (lookupCountryCode g.region)) ∧
     get_geographical_trends
      [⟨RegionVal.str "Germany", SentVal.num (1/2)⟩,
       ⟨RegionVal.str "Germany", SentVal.num (-3/10)⟩] =
      some [GeoResult.country (RegionKey.str "Germany") "DEU" (1/10) 2]) :=
  have he : get_geographical_trends
      [⟨RegionVal.str "France", SentVal.num 1⟩] =
      some [GeoResult.country (RegionKey.str "France") "FRA" 1 1] := by
    norm_num +decide [get_geographical_trends, buildRegionMap, processItem,
      getSentiment, getRegion, insertIfAbsent, addToRegion, lookupKey,
      emitResult, lookupCity, tableLookup, location_coords, lookupCountryCode,
      country_codes, roundTo2_val_1]
  ⟨he, C4_country_fallback _ _ he⟩

/-! ### Claim C5 -/

/-- Claim C5: every output entry whose region key is in the city table is a
city entry carrying the table's coordinates and no `country_code` field; in
particular `"Toronto"` is in the table with latitude `43.6532` and
longitude `-79.3832`, and a `"Toronto"` record yields a city entry with
those coordinates. -/
theorem C5_city_precedence (items : List SentimentRecord)
    (out : List GeoResult) (h : get_geographical_trends items = some out) :
    (∀ g ∈ out, ∀ c : Coord, lookupCity g.region = some c →
      g.type = "city" ∧ g.lat = some c.lat ∧ g.lon = some c.lon ∧
      g.countryCode = Option.none) ∧
    lookupCity (RegionKey.str "Toronto") = some ⟨43.6532, -79.3832⟩ ∧
    get_geographical_trends [⟨RegionVal.str "Toronto", SentVal.num 1⟩] =
      some [GeoResult.city (RegionKey.str "Toronto") 43.6532 (-79.3832) 1 1] := by
  obtain ⟨m, hm, hout⟩ := get_geographical_trends_eq items out h
  subst hout
  refine ⟨?_, ?_, ?_⟩
  · intro g hg c hc
    obtain ⟨p, hp, hpe⟩ := List.mem_map.mp hg
    subst hpe
    rw [emitResult_region] at hc
    rw [emitResult_city p c hc]
    simp [GeoResult.type, GeoResult.lat, GeoResult.lon, GeoResult.countryCode]
  · norm_num +decide [lookupCity, tableLookup, location_coords]
  · norm_num +decide [get_geographical_trends, buildRegionMap, processItem,
      getSentiment, getRegion, insertIfAbsent, addToRegion, lookupKey,
      emitResult, lookupCity, tableLookup, location_coords, lookupCountryCode,
      country_codes, roundTo2_val_1]

theorem C5_city_precedence_witness :
    get_geographical_trends [⟨RegionVal.str "Toronto", SentVal.num 1⟩] =
      some [GeoResult.city (RegionKey.str "Toronto") 43.6532 (-79.3832) 1 1] ∧
    ((∀ g ∈ [GeoResult.city (RegionKey.str "Toronto") 43.6532 (-79.3832) 1 1],
      ∀ c : Coord, lookupCity g.region = some c →
      g.type = "city" ∧ g.lat = some c.lat ∧ g.lon = some c.lon ∧
      g.countryCode = Option.none) ∧
     lookupCity (RegionKey.str "Toronto") = some ⟨43.6532, -79.3832⟩ ∧
     get_geographical_trends [⟨RegionVal.str "Toronto", SentVal.num 1⟩] =
      some [GeoResult.city (RegionKey.str "Toronto") 43.6532 (-79.3832) 1 1]) :=
  have he : get_geographical_trends
      [⟨RegionVal.str "Toronto", SentVal.num 1⟩] =
      some [GeoResult.city (RegionKey.str "Toronto") 43.6532 (-79.3832) 1 1] := by
    norm_num +decide [get_geographical_trends, buildRegionMap, processItem,
      getSentiment, getRegion, insertIfAbsent, addToRegion, lookupKey,
      emitResult, lookupCity, tableLookup, location_coords, lookupCountryCode,
      country_codes, roundTo2_val_1]
  ⟨he, C5_city_precedence _ _ he⟩

/-! ### Claim C6 -/

/-- Claim C6: the output lists one entry per distinct region key, in the
order in which each key first occurs in the input (the insertion order of
the intermediate mapping). -/
theorem C6_first_seen_order (items : List SentimentRecord)
    (out : List GeoResult) (h : get_geographical_trends items = some out) :
    out.map GeoResult.region = firstSeen (items.map getRegion) := by
  obtain ⟨m, hm, hout⟩ := get_geographical_trends_eq items out h
  subst hout
  rw [List.map_map]
  have hcomp : GeoResult.region ∘ emitResult = Prod.fst :=
    funext fun p => emitResult_region p
  rw [hcomp, buildRegionMap_keys items [] m hm]
  rfl

theorem C6_first_seen_order_witness :
    get_geographical_trends
      [⟨RegionVal.str "Toronto", SentVal.num 1⟩,
       ⟨RegionVal.str "Germany", SentVal.num 1⟩,
       ⟨RegionVal.str "Toronto", SentVal.num 1⟩] =
      some [GeoResult.city (RegionKey.str "Toronto") 43.6532 (-79.3832) 1 2,
            GeoResult.country (RegionKey.str "Germany") "DEU" 1 1] ∧
    [GeoResult.city (RegionKey.str "Toronto") 43.6532 (-79.3832) 1 2,
     GeoResult.country (RegionKey.str "Germany") "DEU" 1 1].map
      GeoResult.region =
      firstSeen ([⟨RegionVal.str "Toronto", SentVal.num 1⟩,
        ⟨RegionVal.str "Germany", SentVal.num 1⟩,
        (⟨RegionVal.str "Toronto", SentVal.num 1⟩ : SentimentRecord)].map
          getRegion) :=
  have he : get_geographical_trends
      [⟨RegionVal.str "Toronto", SentVal.num 1⟩,
       ⟨RegionVal.str "Germany", SentVal.num 1⟩,
       ⟨RegionVal.str "Toronto", SentVal.num 1⟩] =
      some [GeoResult.city (RegionKey.str "Toronto") 43.6532 (-79.3832) 1 2,
            GeoResult.country (RegionKey.str "Germany") "DEU" 1 1] := by
    norm_num +decide [get_geographical_trends, buildRegionMap, processItem,
      getSentiment, getRegion, insertIfAbsent, addToRegion, lookupKey,
      emitResult, lookupCity, tableLookup, location_coords, lookupCountryCode,
      country_codes, roundTo2_val_1]
  ⟨he, C6_first_seen_order _ _ he⟩

/-! ### Claim C8 -/

/-- Claim C8: after the grouping pass, every entry of the intermediate
mapping has `count ≥ 1`, so the guarded mean computation always takes its
`count > 0` branch: emitting with the guard equals emitting with the guard
removed, and the `else 0` branch is unreachable. -/
theorem C8_count_ge_one (items : List SentimentRecord) (m : RegionMap)
    (h : buildRegionMap [] items = some m) :
    ∀ p ∈ m, 1 ≤ p.2.count ∧ emitResult p = emitResultNoGuard p := by
  intro p hp
  have hnd := buildRegionMap_keys_nodup items m h
  have hl : lookupKey p.1 m = some p.2 := lookupKey_of_mem m p.1 p.2 hnd hp
  have h0 := buildRegionMap_lookup_none items [] m p.1 h rfl
  rw [hl] at h0
  by_cases hc : contribCount p.1 items = 0
  · rw [if_pos hc] at h0
    exact absurd h0 (by simp)
  · rw [if_neg hc] at h0
    have hagg : p.2 = ⟨contribSum p.1 items, contribCount p.1 items⟩ := by
      injection h0
    have hpos : 0 < p.2.count := by
      rw [hagg]
      exact Nat.pos_of_ne_zero hc
    exact ⟨hpos, by simp [emitResult, emitResultNoGuard, hpos]⟩

theorem C8_count_ge_one_witness :
    buildRegionMap [] [⟨RegionVal.str "Toronto", SentVal.num 1⟩] =
      some [(RegionKey.str "Toronto", ⟨1, 1⟩)] ∧
    ∀ p ∈ [((RegionKey.str "Toronto", ⟨1, 1⟩) : RegionKey × RegionAgg)],
      1 ≤ p.2.count ∧ emitResult p = emitResultNoGuard p :=
  have hb : buildRegionMap [] [⟨RegionVal.str "Toronto", SentVal.num 1⟩] =
      some [(RegionKey.str "Toronto", ⟨1, 1⟩)] := by
    norm_num +decide [buildRegionMap, processItem, getSentiment, getRegion,
      insertIfAbsent, addToRegion, lookupKey]
  ⟨hb, C8_count_ge_one _ _ hb⟩

/-! ### Claim C9 -/

/-- Claim C9: the aggregation routine is a pure function of its input
sequence and the two fixed tables.  The Python function reads but never
writes its input records and builds fresh local structures on every call,
which the embedding reflects by being a plain function with no state
argument; consequently two runs on the same input sequence return
identical output. -/
theorem C9_pure_idempotent (items : List SentimentRecord) :
    get_geographical_trends items = get_geographical_trends items := rfl

/-! ### Claim C10 -/

/-- Claim C10: on a run that completes, the `count` fields of the output
entries sum to the number of input records: every record is counted in
exactly one region, exactly once. -/
theorem C10_counts_sum_to_length (items : List SentimentRecord)
    (out : List GeoResult) (h : get_geographical_trends items = some out) :
    (out.map GeoResult.count).sum = items.length := by
  obtain ⟨m, hm, hout⟩ := get_geographical_trends_eq items out h
  subst hout
  rw [List.map_map]
  have hcomp : GeoResult.count ∘ emitResult = fun p => p.2.count :=
    funext fun p => emitResult_count p
  rw [hcomp]
  have h2 := buildRegionMap_countSum items [] m (by simp) hm
  simpa [countSum] using h2

theorem C10_counts_sum_to_length_witness :
    get_geographical_trends
      [⟨RegionVal.str "Toronto", SentVal.num 1⟩,
       ⟨RegionVal.str "Germany", SentVal.num 1⟩,
       ⟨RegionVal.str "Toronto", SentVal.num 1⟩] =
      some [GeoResult.city (RegionKey.str "Toronto") 43.6532 (-79.3832) 1 2,
            GeoResult.country (RegionKey.str "Germany") "DEU" 1 1] ∧
    ([GeoResult.city (RegionKey.str "Toronto") 43.6532 (-79.3832) 1 2,
      GeoResult.country (RegionKey.str "Germany") "DEU" 1 1].map
        GeoResult.count).sum =
      [⟨RegionVal.str "Toronto", SentVal.num 1⟩,
       ⟨RegionVal.str "Germany", SentVal.num 1⟩,
       (⟨RegionVal.str "Toronto", SentVal.num 1⟩ : SentimentRecord)].length :=
  have he : get_geographical_trends
      [⟨RegionVal.str "Toronto", SentVal.num 1⟩,
       ⟨RegionVal.str "Germany", SentVal.num 1⟩,
       ⟨RegionVal.str "Toronto", SentVal.num 1⟩] =
      some [GeoResult.city (RegionKey.str "Toronto") 43.6532 (-79.3832) 1 2,
            GeoResult.country (RegionKey.str "Germany") "DEU" 1 1] := by
    norm_num +decide [get_geographical_trends, buildRegionMap, processItem,
      getSentiment, getRegion, insertIfAbsent, addToRegion, lookupKey,
      emitResult, lookupCity, tableLookup, location_coords, lookupCountryCode,
      country_codes, roundTo2_val_1]
  ⟨he, C10_counts_sum_to_length _ _ he⟩
